import Mathlib

/-!
Verification development for the defitech browser front-end
(`src/app/static/js/script.js`, `src/app/static/js/notifications.js`,
and the AppLock module).  The JavaScript modules are shallowly embedded:
DOM containers become Lean lists, the mutable `State` object becomes an
explicit state record, and each `async` function is split at its `await`
points into a synchronous start phase and a resolve phase.
-/

namespace Defitech

/-! ## Data model: messages and rendered nodes (script.js)

A backend message as delivered by `GET /api/ai/conversations/<id>?page=n`:
fields `content`, `sender_id`, `message_type` are the ones the renderer
reads.  `height` abstracts the DOM pixel height of the node this message
renders to, so that the container scrollHeight can be expressed as a sum. -/

structure Msg where
  content : String
  sender_id : Nat
  message_type : String
  height : Nat
deriving DecidableEq, Repr

/-- A node appended to the `#messages` container by `createMessageElement`. -/
structure RenderedMsg where
  content : String
  isUser : Bool
  height : Nat
deriving DecidableEq, Repr

/-- `msg.sender_id === (data.user_id || 0) || msg.message_type === 'user'`
(script.js:228 and script.js:282).  `data.user_id || 0` collapses an absent
or zero user id to 0. -/
def jsIsUser (userId : Option Nat) (m : Msg) : Bool :=
  (m.sender_id == (userId.getD 0)) || (m.message_type == "user")

/-- Rendering one message: `this.createMessageElement(msg.content, isUser)`. -/
def renderMsg (userId : Option Nat) (m : Msg) : RenderedMsg :=
  ⟨m.content, jsIsUser userId m, m.height⟩

/-- `scrollHeight` of the `#messages` container: sum of node heights. -/
def contentHeight (l : List RenderedMsg) : Nat :=
  (l.map (·.height)).sum

/-- The `pagination` JSON object inside a page response. -/
structure PageMeta where
  page : Nat
  has_more : Bool
deriving DecidableEq, Repr

/-- Response of `GET /api/ai/conversations/<id>?page=n`.  An absent
`messages` field is collapsed to `[]` (`data.messages || []`). -/
structure PageResp where
  messages : List Msg
  user_id : Option Nat
  pagination : Option PageMeta
deriving DecidableEq, Repr

/-- `State.pagination` (script.js:206). -/
structure Pagination where
  page : Nat
  hasMore : Bool
  isLoading : Bool
deriving DecidableEq, Repr

/-- The mutable client state read by the transcript code:
`State.currentConversationId`, the `#messages` container, `State.pagination`
and the container's `scrollTop`. -/
structure ChatState where
  currentConversationId : Option Nat
  transcript : List RenderedMsg
  pagination : Pagination
  scrollTop : Nat
deriving DecidableEq, Repr

/-- JS falsiness of `State.currentConversationId` (`null` or `0`). -/
def jsNoConversation : Option Nat → Bool
  | none => true
  | some n => n == 0

/-! ## UI.loadMoreMessages (script.js:240-299)

Split at the `await fetch`:
`loadMoreStart` is the synchronous prefix (guard, `isLoading = true`,
recording `scrollHeight`, computing the requested page); `loadMoreResolve`
is the continuation that runs when the response has arrived. -/

/-- Synchronous prefix of `loadMoreMessages`.  Returns the new state and,
when a fetch is issued, `some (conversationId, nextPage, preFetchHeight)`. -/
def loadMoreStart (s : ChatState) : ChatState × Option (Nat × Nat × Nat) :=
  if jsNoConversation s.currentConversationId
      || !s.pagination.hasMore || s.pagination.isLoading then
    (s, none)
  else
    let nextPage := s.pagination.page + 1
    let currentHeight := contentHeight s.transcript
    ({ s with pagination := { s.pagination with isLoading := true } },
      some (s.currentConversationId.getD 0, nextPage, currentHeight))

/-- Continuation of `loadMoreMessages` after a 2xx response (script.js:251-297).
`currentHeight` is the scrollHeight recorded by `loadMoreStart`.

Note the stray in-place `messages.reverse()` on script.js:262: its `forEach`
body is only comments, but `Array.prototype.reverse` mutates the array, so
the fragment built on script.js:280-284 iterates the reversed list.  The
fragment is inserted as one block before the first child, and `isLoading`
is cleared in the `finally` block. -/
def loadMoreResolve (s : ChatState) (currentHeight : Nat) (resp : PageResp) :
    ChatState :=
  let pag :=
    match resp.pagination with
    | some p => { s.pagination with page := p.page, hasMore := p.has_more }
    | none => { s.pagination with hasMore := false }
  let block := (resp.messages.reverse).map (renderMsg resp.user_id)
  let newTranscript := block ++ s.transcript
  let newHeight := contentHeight newTranscript
  { currentConversationId := s.currentConversationId
    transcript := newTranscript
    pagination := { pag with isLoading := false }
    scrollTop := newHeight - currentHeight }

/-! ## UI.loadConversationHistory (script.js:204-238) and
## UI.setActiveConversation (script.js:166-191)

`loadConversationHistory` resets `State.pagination` synchronously, then
awaits the page-1 fetch; the continuation updates pagination from the
response, clears the container (`innerHTML = ''`), appends the page's
messages and scrolls to the bottom.  The continuation never compares its
`conversationId` argument against `State.currentConversationId`. -/

/-- Synchronous prefix of `loadConversationHistory`: the pagination reset
(script.js:206) runs before the fetch is issued. -/
def loadHistoryStart (s : ChatState) : ChatState :=
  { s with pagination := ⟨1, true, false⟩ }

/-- Continuation of `loadConversationHistory` after a 2xx response
(script.js:211-233).  Independent of which conversation the fetch was for. -/
def historyResolve (s : ChatState) (resp : PageResp) : ChatState :=
  let pag :=
    match resp.pagination with
    | some p => { s.pagination with page := p.page, hasMore := p.has_more }
    | none => s.pagination
  let newTranscript := resp.messages.map (renderMsg resp.user_id)
  { currentConversationId := s.currentConversationId
    transcript := newTranscript
    pagination := pag
    scrollTop := contentHeight newTranscript }

/-- Synchronous body of `setActiveConversation` (script.js:166-191):
no-op when the id is already active, otherwise set the id and run the
synchronous prefix of `loadConversationHistory`, leaving a page-1 fetch
for `id` in flight. -/
def setActiveStart (s : ChatState) (id : Nat) : ChatState × Option Nat :=
  if s.currentConversationId == some id then (s, none)
  else (loadHistoryStart { s with currentConversationId := some id }, some id)

/-! ### Event-loop traces

The browser event loop interleaves switch clicks with fetch resolutions.
`ChatSys` additionally tracks the conversation ids of in-flight page-1
fetches so that a trace only resolves fetches that were actually issued. -/

structure ChatSys where
  st : ChatState
  pendingHistory : List Nat
deriving DecidableEq, Repr

inductive ChatEv where
  | switchTo (id : Nat)
  | historyArrive (id : Nat) (resp : PageResp)
deriving DecidableEq, Repr

def chatStep (sys : ChatSys) : ChatEv → ChatSys
  | .switchTo id =>
    match setActiveStart sys.st id with
    | (st, none) => { sys with st := st }
    | (st, some i) => { st := st, pendingHistory := sys.pendingHistory ++ [i] }
  | .historyArrive id resp =>
    if id ∈ sys.pendingHistory then
      { st := historyResolve sys.st resp
        pendingHistory := sys.pendingHistory.erase id }
    else sys

def runChat (init : ChatSys) (evs : List ChatEv) : ChatSys :=
  evs.foldl chatStep init

/-- Initial client state: no active conversation, empty container. -/
def chatInit : ChatSys :=
  { st := { currentConversationId := none
            transcript := []
            pagination := ⟨1, true, false⟩
            scrollTop := 0 }
    pendingHistory := [] }

end Defitech

namespace Defitech

/-! ## Theorems: pagination and conversation switching -/

/-- C1: the claim states that `loadMoreMessages` inserts the returned page's
messages as one contiguous block in the backend's chronological order before
the currently-first rendered node.  The stray in-place `messages.reverse()`
at script.js:262 makes the code insert the block reversed: merging the
chronological page `[M1, M2]` into the transcript `[M3, M4]` produces
`[M2, M1, M3, M4]`, not `[M1, M2, M3, M4]` as the code's own comments at
script.js:262-277 derive. -/
theorem loadMoreMessages_merge_reverses_block :
    (loadMoreResolve
        ⟨some 9, [⟨"M3", false, 1⟩, ⟨"M4", false, 1⟩], ⟨1, true, true⟩, 0⟩
        (contentHeight [⟨"M3", false, 1⟩, ⟨"M4", false, 1⟩])
        ⟨[⟨"M1", 7, "ai", 1⟩, ⟨"M2", 7, "ai", 1⟩], some 3, some ⟨2, true⟩⟩).transcript
      = [⟨"M2", false, 1⟩, ⟨"M1", false, 1⟩, ⟨"M3", false, 1⟩, ⟨"M4", false, 1⟩]
    ∧ (loadMoreResolve
        ⟨some 9, [⟨"M3", false, 1⟩, ⟨"M4", false, 1⟩], ⟨1, true, true⟩, 0⟩
        (contentHeight [⟨"M3", false, 1⟩, ⟨"M4", false, 1⟩])
        ⟨[⟨"M1", 7, "ai", 1⟩, ⟨"M2", 7, "ai", 1⟩], some 3, some ⟨2, true⟩⟩).transcript
      ≠ [⟨"M1", false, 1⟩, ⟨"M2", false, 1⟩, ⟨"M3", false, 1⟩, ⟨"M4", false, 1⟩] := by
  decide

/-- C2: the claim states that a page-1 response for conversation A arriving
after conversation B became active is discarded.  `loadConversationHistory`
has no active-id guard after its `await` (script.js:211-233), so the late
response for A replaces B's transcript: in the trace switch-to-1,
switch-to-2, B's response, then A's late response, the final state has
conversation 2 active but A's messages rendered. -/
theorem staleHistoryResponse_overwrites_transcript :
    (runChat chatInit [.switchTo 1, .switchTo 2,
        .historyArrive 2 ⟨[⟨"fromB", 7, "ai", 1⟩], some 3, some ⟨1, false⟩⟩,
        .historyArrive 1 ⟨[⟨"fromA", 7, "ai", 1⟩], some 3, some ⟨1, false⟩⟩]).st.currentConversationId
      = some 2
    ∧ (runChat chatInit [.switchTo 1, .switchTo 2,
        .historyArrive 2 ⟨[⟨"fromB", 7, "ai", 1⟩], some 3, some ⟨1, false⟩⟩,
        .historyArrive 1 ⟨[⟨"fromA", 7, "ai", 1⟩], some 3, some ⟨1, false⟩⟩]).st.transcript
      = [⟨"fromA", false, 1⟩]
    ∧ [⟨"fromA", false, 1⟩] ≠ ([⟨"fromB", false, 1⟩] : List RenderedMsg) := by
  decide

/-- C3 counterexample: the claim states the Transcript is emptied
synchronously at switch time, before the page-1 fetch resolves.  In the
trace switch-to-1, resolve 1, switch-to-2, the state after the second
switch (its fetch still in flight) has the pagination reset but the old
transcript still rendered. -/
theorem switch_does_not_empty_transcript :
    (runChat chatInit [.switchTo 1,
        .historyArrive 1 ⟨[⟨"old", 7, "ai", 1⟩], some 3, some ⟨1, false⟩⟩,
        .switchTo 2]).st.pagination = ⟨1, true, false⟩
    ∧ (runChat chatInit [.switchTo 1,
        .historyArrive 1 ⟨[⟨"old", 7, "ai", 1⟩], some 3, some ⟨1, false⟩⟩,
        .switchTo 2]).st.currentConversationId = some 2
    ∧ (runChat chatInit [.switchTo 1,
        .historyArrive 1 ⟨[⟨"old", 7, "ai", 1⟩], some 3, some ⟨1, false⟩⟩,
        .switchTo 2]).st.transcript ≠ [] := by
  decide

/-- C3 (amended): on every switch to a new conversation id, the
PaginationCursor is reset to page 1, hasMore true, isLoading false
synchronously at switch time, before the page-1 fetch resolves; the
Transcript is left untouched at that point and is replaced wholesale
(cleared and refilled with the page's messages) only when the page-1
response is processed. -/
theorem switch_resets_pagination_before_resolve (s : ChatState) (id : Nat)
    (h : s.currentConversationId ≠ some id) :
    ((setActiveStart s id).1.pagination = ⟨1, true, false⟩
      ∧ (setActiveStart s id).1.transcript = s.transcript
      ∧ (setActiveStart s id).1.currentConversationId = some id
      ∧ (setActiveStart s id).2 = some id)
    ∧ ∀ (s' : ChatState) (resp : PageResp),
        (historyResolve s' resp).transcript
          = resp.messages.map (renderMsg resp.user_id) := by
  constructor
  · unfold setActiveStart loadHistoryStart
    simp [beq_iff_eq, h]
  · intro s' resp
    rfl

/-- Witness for `switch_resets_pagination_before_resolve` at the initial
state and conversation id 1. -/
theorem switch_resets_pagination_before_resolve_witness :
    chatInit.st.currentConversationId ≠ some 1
    ∧ (setActiveStart chatInit.st 1).1.pagination = ⟨1, true, false⟩ :=
  ⟨by decide, ((switch_resets_pagination_before_resolve chatInit.st 1
      (by decide)).1).1⟩

/-- C5: after a successful older-page merge triggered at scroll offset 0,
the code sets the new scroll offset to exactly
newContentHeight − preFetchContentHeight (script.js:290-291), the content
height grows by exactly the merged block's height, and the resulting offset
equals the old offset plus that delta. -/
theorem loadMore_scroll_anchor (s : ChatState) (resp : PageResp)
    (h0 : s.scrollTop = 0) :
    (loadMoreResolve s (contentHeight s.transcript) resp).scrollTop
      = contentHeight
          (loadMoreResolve s (contentHeight s.transcript) resp).transcript
        - contentHeight s.transcript
    ∧ contentHeight
          (loadMoreResolve s (contentHeight s.transcript) resp).transcript
      = contentHeight s.transcript
        + contentHeight ((resp.messages.reverse).map (renderMsg resp.user_id))
    ∧ (loadMoreResolve s (contentHeight s.transcript) resp).scrollTop
      = s.scrollTop
        + (contentHeight
            (loadMoreResolve s (contentHeight s.transcript) resp).transcript
          - contentHeight s.transcript) := by
  have hsum : contentHeight
      (loadMoreResolve s (contentHeight s.transcript) resp).transcript
      = contentHeight s.transcript
        + contentHeight ((resp.messages.reverse).map (renderMsg resp.user_id)) := by
    simp only [loadMoreResolve, contentHeight, List.map_append, List.sum_append]
    omega
  refine ⟨rfl, hsum, ?_⟩
  simp only [loadMoreResolve] at hsum ⊢
  omega

/-- Witness for `loadMore_scroll_anchor` at a concrete state with scroll
offset 0 and a two-message page. -/
theorem loadMore_scroll_anchor_witness :
    (⟨some 9, [⟨"M3", false, 4⟩], ⟨1, true, true⟩, 0⟩ : ChatState).scrollTop = 0
    ∧ (loadMoreResolve ⟨some 9, [⟨"M3", false, 4⟩], ⟨1, true, true⟩, 0⟩
        (contentHeight [⟨"M3", false, 4⟩])
        ⟨[⟨"M1", 7, "ai", 2⟩, ⟨"M2", 7, "ai", 3⟩], some 3, some ⟨2, true⟩⟩).scrollTop
      = (⟨some 9, [⟨"M3", false, 4⟩], ⟨1, true, true⟩, 0⟩ : ChatState).scrollTop
        + (contentHeight
            (loadMoreResolve ⟨some 9, [⟨"M3", false, 4⟩], ⟨1, true, true⟩, 0⟩
              (contentHeight [⟨"M3", false, 4⟩])
              ⟨[⟨"M1", 7, "ai", 2⟩, ⟨"M2", 7, "ai", 3⟩], some 3, some ⟨2, true⟩⟩).transcript
          - contentHeight [(⟨"M3", false, 4⟩ : RenderedMsg)]) :=
  ⟨rfl, (loadMore_scroll_anchor ⟨some 9, [⟨"M3", false, 4⟩], ⟨1, true, true⟩, 0⟩
      ⟨[⟨"M1", 7, "ai", 2⟩, ⟨"M2", 7, "ai", 3⟩], some 3, some ⟨2, true⟩⟩ rfl).2.2⟩

/-- C7: whenever no conversation is active, or hasMore is false, or
isLoading is true, `loadMoreMessages` returns at its guard
(script.js:241): it issues no fetch and leaves the entire state, in
particular the Transcript and the PaginationCursor, unchanged. -/
theorem loadMoreMessages_noop (s : ChatState)
    (h : s.currentConversationId = none ∨ s.pagination.hasMore = false
        ∨ s.pagination.isLoading = true) :
    loadMoreStart s = (s, none) := by
  unfold loadMoreStart
  rcases h with h | h | h <;> simp [jsNoConversation, h]

/-- Witness for `loadMoreMessages_noop` at the initial state, which has no
active conversation. -/
theorem loadMoreMessages_noop_witness :
    (chatInit.st.currentConversationId = none
        ∨ chatInit.st.pagination.hasMore = false
        ∨ chatInit.st.pagination.isLoading = true)
    ∧ loadMoreStart chatInit.st = (chatInit.st, none) :=
  ⟨Or.inl rfl, loadMoreMessages_noop chatInit.st (Or.inl rfl)⟩

end Defitech

namespace Defitech

/-! ## UI.pollImageStatus (script.js:712-749)

One status check (`check`) either receives a semantic status from the
backend (`completed`, `failed`, or anything else, treated as pending) or
throws (network error, the `catch` branch).  `attempts` is incremented only
in the pending branch; the `catch` branch reschedules after 5000 ms without
touching `attempts` and without checking the bound. -/

inductive PollOutcome where
  | completed
  | failed
  | pending
  | reqError
deriving DecidableEq, Repr

inductive PollPhase where
  | polling (attempts : Nat)
  | doneCompleted
  | doneFailed
  | doneTimedOut
deriving DecidableEq, Repr

def maxAttempts : Nat := 60

def isTerminal : PollPhase → Bool
  | .polling _ => false
  | _ => true

/-- One execution of `check` (script.js:718-746): returns the next phase
and the delay of the rescheduled check, if one is scheduled. -/
def pollStep (ph : PollPhase) (o : PollOutcome) : PollPhase × Option Nat :=
  match ph with
  | .polling a =>
    match o with
    | .completed => (.doneCompleted, none)
    | .failed => (.doneFailed, none)
    | .pending =>
      if a + 1 < maxAttempts then (.polling (a + 1), some 2000)
      else (.doneTimedOut, none)
    | .reqError => (.polling a, some 5000)
  | t => (t, none)

/-- The poller after `n` checks whose outcomes are drawn from the stream
`s`; `pollImageStatus` starts it with `attempts = 0`. -/
def pollRun (s : Nat → PollOutcome) : Nat → PollPhase
  | 0 => .polling 0
  | n + 1 => (pollStep (pollRun s n) (s n)).1

theorem pollRun_allError (n : Nat) :
    pollRun (fun _ => PollOutcome.reqError) n = .polling 0 := by
  induction n with
  | zero => rfl
  | succ n ih => simp [pollRun, ih, pollStep]

/-- C6 counterexample: on a stream of checks that all fail with a transient
request error, the poller never reaches a terminal state — the `catch`
branch (script.js:742-745) reschedules unconditionally without counting the
attempt, so the loop does not self-terminate. -/
theorem pollImageStatus_not_bounded :
    ¬ ∃ n, isTerminal (pollRun (fun _ => PollOutcome.reqError) n) = true := by
  rintro ⟨n, hn⟩
  rw [pollRun_allError n] at hn
  simp [isTerminal] at hn

theorem pollStep_terminal (ph : PollPhase) (o : PollOutcome)
    (h : isTerminal ph = true) : pollStep ph o = (ph, none) := by
  cases ph <;> simp_all [isTerminal, pollStep]

theorem pollRun_progress (s : Nat → PollOutcome)
    (h : ∀ i, s i ≠ PollOutcome.reqError) (n : Nat) (hn : n ≤ maxAttempts - 1) :
    pollRun s n = .polling n ∨ isTerminal (pollRun s n) = true := by
  induction n with
  | zero => exact Or.inl rfl
  | succ n ih =>
    rcases ih (Nat.le_of_succ_le hn) with ih | ih
    · have hs : pollRun s (n + 1) = (pollStep (.polling n) (s n)).1 := by
        show (pollStep (pollRun s n) (s n)).1 = _
        rw [ih]
      rcases ho : s n with _ | _ | _ | _ <;> rw [hs, ho]
      · exact Or.inr rfl
      · exact Or.inr rfl
      · have hlt : n + 1 < maxAttempts := by
          unfold maxAttempts at hn ⊢; omega
        left
        simp [pollStep, hlt]
      · exact absurd ho (h n)
    · right
      show isTerminal (pollStep (pollRun s n) (s n)).1 = true
      rw [pollStep_terminal _ _ ih]
      exact ih

/-- C6 (amended): for every task and every sequence of status-check
outcomes that contains no transient request error, the poller reaches a
terminal state within `maxAttempts` (60) checks, stays there, and schedules
no further check once terminal; a transient request error is rescheduled
after 5000 ms — longer than the normal 2000 ms interval — without counting
toward the attempt bound, so a persistently erroring request sequence is
retried indefinitely. -/
theorem pollImageStatus_terminates (s : Nat → PollOutcome)
    (h : ∀ i, s i ≠ PollOutcome.reqError) :
    isTerminal (pollRun s maxAttempts) = true
    ∧ (∀ m, pollRun s (maxAttempts + m) = pollRun s maxAttempts)
    ∧ (∀ ph o, isTerminal ph = true → pollStep ph o = (ph, none))
    ∧ (∀ a, pollStep (.polling a) .reqError = (.polling a, some 5000))
    ∧ 2000 < 5000 := by
  have hterm : isTerminal (pollRun s maxAttempts) = true := by
    have h59 := pollRun_progress s h (maxAttempts - 1) le_rfl
    have hstep : pollRun s maxAttempts
        = (pollStep (pollRun s (maxAttempts - 1)) (s (maxAttempts - 1))).1 := rfl
    rcases h59 with h59 | h59
    · rw [hstep, h59]
      rcases ho : s (maxAttempts - 1) with _ | _ | _ | _
      · rfl
      · rfl
      · decide
      · exact absurd ho (h (maxAttempts - 1))
    · rw [hstep, pollStep_terminal _ _ h59]
      exact h59
  refine ⟨hterm, ?_, pollStep_terminal, fun a => rfl, by norm_num⟩
  intro m
  induction m with
  | zero => rfl
  | succ m ih =>
    show (pollStep (pollRun s (maxAttempts + m)) (s (maxAttempts + m))).1 = _
    rw [ih, pollStep_terminal _ _ hterm]

/-- The outcome stream on which every status check reports `pending`. -/
def constPending : Nat → PollOutcome := fun _ => .pending

/-- Witness for `pollImageStatus_terminates` on the constantly-pending
outcome stream. -/
theorem pollImageStatus_terminates_witness :
    (∀ i : Nat, constPending i ≠ PollOutcome.reqError)
    ∧ isTerminal (pollRun constPending maxAttempts) = true := by
  constructor
  · intro i
    simp [constPending]
  · exact (pollImageStatus_terminates constPending
      (fun i => by simp [constPending])).1

end Defitech

namespace Defitech

/-! ## UI.typeAIStream (script.js:657-688)

`const words = content.split(' ')` splits on the single space character
(JS `String.prototype.split` with separator `' '`); the loop accumulates
`currentText += words[i] + ' '` and re-renders the whole accumulator each
iteration.  Strings are embedded as `List Char`. -/

/-- JS `str.split(sep)` for a one-character separator: `[] ↦ [[]]`, and a
separator character opens a new (initially empty) token. -/
def jsSplitChar (c : Char) : List Char → List (List Char)
  | [] => [[]]
  | x :: xs =>
    match jsSplitChar c xs with
    | [] => [[]]
    | w :: ws => if x = c then [] :: w :: ws else (x :: w) :: ws

/-- Tokens re-joined with the separator character between them. -/
def joinSep (c : Char) : List (List Char) → List Char
  | [] => []
  | [w] => w
  | w :: ws => w ++ c :: joinSep c ws

/-- The accumulator of `typeAIStream` after the loop has consumed every
token: `words.foldl (acc + word + ' ')` starting from the empty string. -/
def typeAIStreamAccum (content : List Char) : List Char :=
  (jsSplitChar ' ' content).foldl (fun acc w => acc ++ w ++ [' ']) []

theorem jsSplitChar_ne_nil (c : Char) (l : List Char) : jsSplitChar c l ≠ [] := by
  cases l with
  | nil => simp [jsSplitChar]
  | cons x xs =>
    simp only [jsSplitChar]
    rcases h : jsSplitChar c xs with _ | ⟨w, ws⟩
    · simp
    · by_cases hx : x = c <;> simp [hx]

theorem joinSep_jsSplitChar (c : Char) (l : List Char) :
    joinSep c (jsSplitChar c l) = l := by
  induction l with
  | nil => rfl
  | cons x xs ih =>
    rcases h : jsSplitChar c xs with _ | ⟨w, ws⟩
    · exact absurd h (jsSplitChar_ne_nil c xs)
    · rw [h] at ih
      have hgoal : jsSplitChar c (x :: xs)
          = if x = c then [] :: w :: ws else (x :: w) :: ws := by
        simp only [jsSplitChar, h]
      rw [hgoal]
      by_cases hx : x = c
      · subst hx
        rw [if_pos rfl]
        show x :: joinSep x (w :: ws) = x :: xs
        rw [ih]
      · rw [if_neg hx]
        cases ws with
        | nil =>
          show x :: w = x :: xs
          simp only [joinSep] at ih
          rw [ih]
        | cons w2 ws2 =>
          show (x :: w) ++ c :: joinSep c (w2 :: ws2) = x :: xs
          simp only [joinSep] at ih
          rw [List.cons_append, ih]

theorem foldl_sep_eq (c : Char) (ws : List (List Char)) (acc : List Char) :
    ws.foldl (fun a w => a ++ w ++ [c]) acc
      = acc ++ (ws.map (· ++ [c])).flatten := by
  induction ws generalizing acc with
  | nil => simp
  | cons w ws ih =>
    simp only [List.foldl_cons, List.map_cons, List.flatten_cons]
    rw [ih]
    simp [List.append_assoc]

theorem flatten_map_sep (c : Char) (ws : List (List Char)) (h : ws ≠ []) :
    (ws.map (· ++ [c])).flatten = joinSep c ws ++ [c] := by
  induction ws with
  | nil => exact absurd rfl h
  | cons w ws ih =>
    cases ws with
    | nil => simp [joinSep]
    | cons w2 ws2 =>
      have hne : w2 :: ws2 ≠ [] := by simp
      calc ((w :: w2 :: ws2).map (· ++ [c])).flatten
          = (w ++ [c]) ++ ((w2 :: ws2).map (· ++ [c])).flatten := by
            simp only [List.map_cons, List.flatten_cons]
        _ = (w ++ [c]) ++ (joinSep c (w2 :: ws2) ++ [c]) := by rw [ih hne]
        _ = (w ++ c :: joinSep c (w2 :: ws2)) ++ [c] := by
            simp [List.append_assoc]
        _ = joinSep c (w :: w2 :: ws2) ++ [c] := rfl

/-- C8 counterexample: the claim states the accumulated string after the
final iteration equals the original `fullContent`.  The loop appends the
separator after every token, including the last, so for the content
"hello world" the accumulator ends as "hello world " (with a trailing
space), not "hello world". -/
theorem typeAIStream_accum_not_roundtrip :
    typeAIStreamAccum ("hello world".toList) ≠ "hello world".toList
    ∧ typeAIStreamAccum ("hello world".toList) = "hello world ".toList := by
  decide

/-- C8 (amended): `typeAIStream` splits `fullContent` on the space
character, appends each token plus a space separator to the accumulator and
re-renders the entire accumulated prefix after every token; after the final
iteration the accumulated string equals the original `fullContent` followed
by exactly one trailing space, so the final displayed markup is the render
of `fullContent ++ " "` rather than of `fullContent` itself. -/
theorem typeAIStream_accum_roundtrip (content : List Char) :
    typeAIStreamAccum content = content ++ [' '] := by
  unfold typeAIStreamAccum
  rw [foldl_sep_eq]
  rw [flatten_map_sep ' ' _ (jsSplitChar_ne_nil ' ' content)]
  rw [joinSep_jsSplitChar]
  simp

end Defitech

namespace Defitech

/-! ## Sanitization of AI-authored markup (createMessageElement,
script.js:519-535; setupMarkdown, script.js:406-417)

DOMPurify is an external library; only its configuration lives in this
repository.  Modelled from the spec: the missing part is the body of
`DOMPurify.sanitize`, described as sanitizing "the resulting HTML against
an explicit allow-list of tags and attributes" such that "no
script/style/iframe/form/object/embed ever passes".  Markup is abstracted
as the list of element nodes it contains, each carrying its tag name and
attribute names; sanitizing keeps only allow-listed tags and, on each kept
element, only allow-listed attributes, where `ALLOW_DATA_ATTR: true` in the
createMessageElement call additionally admits `data-` attributes. -/

structure HtmlNode where
  tag : String
  attrs : List String
deriving DecidableEq, Repr

/-- `ALLOWED_TAGS` of the `DOMPurify.sanitize` call (script.js:528-532). -/
def ALLOWED_TAGS : List String :=
  ["h1", "h2", "h3", "h4", "h5", "h6", "blockquote", "p", "a", "ul", "ol",
   "li", "b", "i", "strong", "em", "strike", "code", "hr", "br", "div",
   "table", "thead", "tbody", "tr", "th", "td", "pre", "span", "img", "kbd"]

/-- `ALLOWED_ATTR` of the `DOMPurify.sanitize` call (script.js:533). -/
def ALLOWED_ATTR : List String :=
  ["href", "src", "alt", "title", "class", "target", "rel",
   "data-language", "data-filename", "data-task-id"]

/-- An attribute name of the form `data-*`. -/
def isDataAttr (a : String) : Bool :=
  a.toList.take 5 == "data-".toList

/-- An event-handler attribute name (`on*`, e.g. `onclick`, `onerror`). -/
def isEventHandlerAttr (a : String) : Bool :=
  a.toList.take 2 == "on".toList

/-- An attribute name admitted by the configuration: listed in
`ALLOWED_ATTR`, or a data-attribute (`ALLOW_DATA_ATTR: true`). -/
def allowedAttr (a : String) : Bool :=
  ALLOWED_ATTR.contains a || isDataAttr a

/-- Modelled from the spec: `DOMPurify.sanitize` with the configuration of
createMessageElement drops every element whose tag is not allow-listed and
strips every attribute that is neither allow-listed nor a data-attribute. -/
def sanitize (nodes : List HtmlNode) : List HtmlNode :=
  (nodes.filter (fun n => ALLOWED_TAGS.contains n.tag)).map
    (fun n => { n with attrs := n.attrs.filter allowedAttr })

theorem allowed_attr_not_handler (a : String) (h : allowedAttr a = true) :
    isEventHandlerAttr a = false := by
  unfold allowedAttr at h
  rcases Bool.or_eq_true_iff.mp h with h | h
  · have hmem : a ∈ ALLOWED_ATTR := by simpa using h
    fin_cases hmem <;> decide
  · unfold isDataAttr at h
    have htake : a.toList.take 5 = "data-".toList := eq_of_beq h
    unfold isEventHandlerAttr
    have hmin : (2 : Nat) ⊓ 5 = 2 := by norm_num
    have h2 : a.toList.take 2 = ['d', 'a'] := by
      have h25 : (a.toList.take 5).take 2 = a.toList.take 2 := by
        rw [List.take_take, hmin]
      rw [← h25, htake]
      rfl
    rw [h2]
    decide

/-- C4: every node of the sanitized output carries an allow-listed tag — in
particular it is none of script, iframe, style, form, object, embed — and
none of its surviving attributes is an event-handler (`on*`) attribute, for
every input markup. -/
theorem sanitize_output_allowlisted (nodes : List HtmlNode) (n : HtmlNode)
    (hn : n ∈ sanitize nodes) :
    n.tag ∈ ALLOWED_TAGS
    ∧ n.tag ≠ "script" ∧ n.tag ≠ "iframe" ∧ n.tag ≠ "style"
    ∧ n.tag ≠ "form" ∧ n.tag ≠ "object" ∧ n.tag ≠ "embed"
    ∧ ∀ a ∈ n.attrs, isEventHandlerAttr a = false := by
  unfold sanitize at hn
  rcases List.mem_map.mp hn with ⟨m, hm, rfl⟩
  have htag : ALLOWED_TAGS.contains m.tag = true := (List.mem_filter.mp hm).2
  have hmem : m.tag ∈ ALLOWED_TAGS := by simpa using htag
  refine ⟨hmem, ?_, ?_, ?_, ?_, ?_, ?_, ?_⟩
  · intro hc; rw [hc] at hmem; exact absurd hmem (by decide)
  · intro hc; rw [hc] at hmem; exact absurd hmem (by decide)
  · intro hc; rw [hc] at hmem; exact absurd hmem (by decide)
  · intro hc; rw [hc] at hmem; exact absurd hmem (by decide)
  · intro hc; rw [hc] at hmem; exact absurd hmem (by decide)
  · intro hc; rw [hc] at hmem; exact absurd hmem (by decide)
  · intro a ha
    have := (List.mem_filter.mp ha).2
    exact allowed_attr_not_handler a this

/-- Witness for `sanitize_output_allowlisted`: sanitizing a markup that
contains a script element, an iframe element and an onclick handler keeps
only the paragraph node with its class attribute. -/
theorem sanitize_output_allowlisted_witness :
    sanitize [⟨"script", ["src"]⟩, ⟨"iframe", ["src"]⟩,
        ⟨"p", ["onclick", "class"]⟩]
      = [⟨"p", ["class"]⟩]
    ∧ (⟨"p", ["class"]⟩ : HtmlNode).tag ∈ ALLOWED_TAGS :=
  ⟨by decide,
    (sanitize_output_allowlisted
      [⟨"script", ["src"]⟩, ⟨"iframe", ["src"]⟩, ⟨"p", ["onclick", "class"]⟩]
      ⟨"p", ["class"]⟩ (by decide)).1⟩

end Defitech

namespace Defitech

/-! ## NotificationManager (notifications.js)

The fields the counted-notifications logic touches: `this.notifications`
(objects with `id` and `est_lue`) and `this.unreadCount`.  Each network
method only mutates state inside `if (response.ok)`, modelled by an `ok`
flag; `clearAll` additionally asks for a `confirm()` first. -/

structure Notif where
  id : Nat
  est_lue : Bool
deriving DecidableEq, Repr

structure NotifState where
  notifications : List Notif
  unreadCount : Int
deriving DecidableEq, Repr

namespace NotificationManager

/-- `notif.est_lue = true` applied to the object found by
`this.notifications.find(n => n.id == id)` — only the first match is
mutated. -/
def setReadFirst (id : Nat) : List Notif → List Notif
  | [] => []
  | n :: ns =>
    if n.id == id then { n with est_lue := true } :: ns
    else n :: setReadFirst id ns

/-- `markAsRead` (notifications.js:288-311): on a 2xx response, if the
notification exists and was unread, mark it read and decrement the badge
count clamped at zero (`Math.max(0, this.unreadCount - 1)`). -/
def markAsRead (ok : Bool) (id : Nat) (s : NotifState) : NotifState :=
  if ok then
    match s.notifications.find? (fun n => n.id == id) with
    | some n =>
      if !n.est_lue then
        { notifications := setReadFirst id s.notifications
          unreadCount := max 0 (s.unreadCount - 1) }
      else s
    | none => s
  else s

/-- `deleteNotification` (notifications.js:340-366): on a 2xx response, if
the notification exists, splice it out and, when it was unread, decrement
the count clamped at zero. -/
def wasUnreadAt (l : List Notif) (i : Nat) : Bool :=
  match l[i]? with
  | some n => !n.est_lue
  | none => false

def deleteNotification (ok : Bool) (id : Nat) (s : NotifState) : NotifState :=
  if ok then
    match s.notifications.findIdx? (fun n => n.id == id) with
    | some i =>
      { notifications := s.notifications.eraseIdx i
        unreadCount :=
          if wasUnreadAt s.notifications i then max 0 (s.unreadCount - 1)
          else s.unreadCount }
    | none => s
  else s

/-- `markAllAsRead` (notifications.js:313-338): on a 2xx response, mark
every notification read and set the count to exactly 0. -/
def markAllAsRead (ok : Bool) (s : NotifState) : NotifState :=
  if ok then
    { notifications := s.notifications.map (fun n => { n with est_lue := true })
      unreadCount := 0 }
  else s

/-- `clearAll` (notifications.js:368-399): after the user confirms and the
request succeeds, drop all notifications and set the count to exactly 0. -/
def clearAll (confirmed : Bool) (ok : Bool) (s : NotifState) : NotifState :=
  if confirmed && ok then { notifications := [], unreadCount := 0 }
  else s

end NotificationManager

inductive NotifOp where
  | markAsRead (ok : Bool) (id : Nat)
  | deleteNotification (ok : Bool) (id : Nat)
  | markAllAsRead (ok : Bool)
  | clearAll (confirmed : Bool) (ok : Bool)
deriving DecidableEq, Repr

def applyNotifOp (op : NotifOp) (s : NotifState) : NotifState :=
  match op with
  | .markAsRead ok id => NotificationManager.markAsRead ok id s
  | .deleteNotification ok id => NotificationManager.deleteNotification ok id s
  | .markAllAsRead ok => NotificationManager.markAllAsRead ok s
  | .clearAll confirmed ok => NotificationManager.clearAll confirmed ok s

def runNotifOps : List NotifOp → NotifState → NotifState
  | [], s => s
  | op :: ops, s => runNotifOps ops (applyNotifOp op s)

theorem applyNotifOp_nonneg (op : NotifOp) (s : NotifState)
    (h : 0 ≤ s.unreadCount) : 0 ≤ (applyNotifOp op s).unreadCount := by
  rcases op with ⟨ok, id⟩ | ⟨ok, id⟩ | ok | ⟨confirmed, ok⟩
  · show 0 ≤ (NotificationManager.markAsRead ok id s).unreadCount
    unfold NotificationManager.markAsRead
    split
    · split
      · split
        · exact le_max_left 0 _
        · exact h
      · exact h
    · exact h
  · show 0 ≤ (NotificationManager.deleteNotification ok id s).unreadCount
    unfold NotificationManager.deleteNotification
    split
    · split
      · show (0 : Int) ≤ if _ then max 0 (s.unreadCount - 1) else s.unreadCount
        split
        · exact le_max_left 0 _
        · exact h
      · exact h
    · exact h
  · show 0 ≤ (NotificationManager.markAllAsRead ok s).unreadCount
    unfold NotificationManager.markAllAsRead
    split
    · exact le_refl 0
    · exact h
  · show 0 ≤ (NotificationManager.clearAll confirmed ok s).unreadCount
    unfold NotificationManager.clearAll
    split
    · exact le_refl 0
    · exact h

/-- C9: after every sequence of markAsRead, deleteNotification,
markAllAsRead and clearAll operations applied to a state with a
non-negative unreadCount, the unreadCount is still non-negative — the two
decrementing operations clamp at zero, and markAllAsRead and clearAll (on
their success paths) set the count to exactly 0. -/
theorem unreadCount_nonneg (ops : List NotifOp) (s : NotifState)
    (h : 0 ≤ s.unreadCount) :
    0 ≤ (runNotifOps ops s).unreadCount
    ∧ (NotificationManager.markAllAsRead true s).unreadCount = 0
    ∧ (NotificationManager.clearAll true true s).unreadCount = 0 := by
  refine ⟨?_, rfl, rfl⟩
  induction ops generalizing s with
  | nil => exact h
  | cons op ops ih => exact ih (applyNotifOp op s) (applyNotifOp_nonneg op s h)

/-- Witness for `unreadCount_nonneg`: marking one of two unread
notifications read and then deleting the other, starting from a count
of 2. -/
theorem unreadCount_nonneg_witness :
    (0 : Int) ≤ (⟨[⟨1, false⟩, ⟨2, false⟩], 2⟩ : NotifState).unreadCount
    ∧ 0 ≤ (runNotifOps [.markAsRead true 1, .deleteNotification true 2]
        ⟨[⟨1, false⟩, ⟨2, false⟩], 2⟩).unreadCount :=
  ⟨by decide,
    (unreadCount_nonneg [.markAsRead true 1, .deleteNotification true 2]
      ⟨[⟨1, false⟩, ⟨2, false⟩], 2⟩ (by decide)).1⟩

end Defitech

namespace Defitech

/-! ## AppLock (src/unnamed/part_000)

The PIN keypad state: `this.digits` (one entry per pressed key) and
`this.state.isVerifying`.  `config.pinLength = 6`.  `verifyPIN` is split
at its `await fetch`: `verifyStart` is the synchronous prefix up to and
including issuing the request (`pin = this.digits.join('')`), and
`verifyResolve` is the continuation with its `finally` block. -/

namespace AppLock

def pinLength : Nat := 6

structure LockState where
  digits : List Nat
  isVerifying : Bool
deriving DecidableEq, Repr

/-- `appendDigit` (part_000:86-104): refuse once the buffer holds
`pinLength` digits, otherwise push the digit. -/
def appendDigit (d : Nat) (s : LockState) : LockState :=
  if s.digits.length ≥ pinLength then s
  else { s with digits := s.digits ++ [d] }

/-- `clearDigits` (part_000:106-110). -/
def clearDigits (s : LockState) : LockState :=
  { s with digits := [] }

/-- Synchronous prefix of `verifyPIN` (part_000:123-128): bail out while a
verification is in flight, bail out below 4 digits, otherwise set
`isVerifying` and submit the joined digits as the pin. -/
def verifyStart (s : LockState) : LockState × Option (List Nat) :=
  if s.isVerifying then (s, none)
  else if s.digits.length < 4 then (s, none)
  else ({ s with isVerifying := true }, some s.digits)

/-- Continuation of `verifyPIN` (part_000:151-189): on success the digits
are cleared; the `finally` block always resets `isVerifying`. -/
def verifyResolve (success : Bool) (s : LockState) : LockState :=
  if success then { digits := [], isVerifying := false }
  else { s with isVerifying := false }

end AppLock

inductive LockOp where
  | append (d : Nat)
  | clear
  | verify
  | resolve (success : Bool)
deriving DecidableEq, Repr

def applyLockOp (op : LockOp) (s : AppLock.LockState) : AppLock.LockState :=
  match op with
  | .append d => AppLock.appendDigit d s
  | .clear => AppLock.clearDigits s
  | .verify => (AppLock.verifyStart s).1
  | .resolve success => AppLock.verifyResolve success s

def runLock : List LockOp → AppLock.LockState → AppLock.LockState
  | [], s => s
  | op :: ops, s => runLock ops (applyLockOp op s)

/-- `AppLock.digits = []`, no verification in flight. -/
def lockInit : AppLock.LockState := ⟨[], false⟩

theorem applyLockOp_digits_le (op : LockOp) (s : AppLock.LockState)
    (h : s.digits.length ≤ AppLock.pinLength) :
    (applyLockOp op s).digits.length ≤ AppLock.pinLength := by
  rcases op with d | _ | _ | success
  · show (AppLock.appendDigit d s).digits.length ≤ AppLock.pinLength
    unfold AppLock.appendDigit
    split
    · exact h
    · rename_i hlt
      simp only [List.length_append, List.length_cons, List.length_nil]
      omega
  · exact Nat.zero_le _
  · show ((AppLock.verifyStart s).1).digits.length ≤ AppLock.pinLength
    unfold AppLock.verifyStart
    split
    · exact h
    · split
      · exact h
      · exact h
  · show (AppLock.verifyResolve success s).digits.length ≤ AppLock.pinLength
    unfold AppLock.verifyResolve
    split
    · exact Nat.zero_le _
    · exact h

theorem runLock_digits_le (ops : List LockOp) (s : AppLock.LockState)
    (h : s.digits.length ≤ AppLock.pinLength) :
    (runLock ops s).digits.length ≤ AppLock.pinLength := by
  induction ops generalizing s with
  | nil => exact h
  | cons op ops ih => exact ih (applyLockOp op s) (applyLockOp_digits_le op s h)

theorem verifyStart_noop (s : AppLock.LockState)
    (h : s.digits.length < 4 ∨ s.isVerifying = true) :
    AppLock.verifyStart s = (s, none) := by
  unfold AppLock.verifyStart
  rcases hv : s.isVerifying with _ | _
  · rcases h with h | h
    · rw [if_neg (by simp), if_pos h]
    · exact absurd h (by simp [hv])
  · rw [if_pos rfl]

theorem verifyStart_submits (s : AppLock.LockState) (s' : AppLock.LockState)
    (pin : List Nat) (h6 : s.digits.length ≤ AppLock.pinLength)
    (h : AppLock.verifyStart s = (s', some pin)) :
    4 ≤ pin.length ∧ pin.length ≤ AppLock.pinLength
    ∧ s.isVerifying = false ∧ s'.isVerifying = true
    ∧ AppLock.verifyStart s' = (s', none) := by
  unfold AppLock.verifyStart at h
  rcases hv : s.isVerifying with _ | _
  · rw [hv] at h
    simp only [Bool.false_eq_true, if_false] at h
    by_cases hlen : s.digits.length < 4
    · rw [if_pos hlen] at h
      simp at h
    · rw [if_neg hlen] at h
      have hs' : s' = { s with isVerifying := true } := by
        have := congrArg Prod.fst h
        exact this.symm
      have hpin : pin = s.digits := by
        have := congrArg Prod.snd h
        simpa using this.symm
      subst hs' hpin
      refine ⟨by omega, h6, rfl, rfl, ?_⟩
      unfold AppLock.verifyStart
      rw [if_pos rfl]
  · rw [hv] at h
    simp only [if_true] at h
    simp at h

/-- C10: starting from the unlocked initial state, after any sequence of
keypad, clear, verify and response events the digit buffer never exceeds
pinLength (6) digits; invoking verifyPIN with fewer than 4 digits entered
or while a verification is in flight is a no-op that issues no request;
and whenever verifyPIN does submit a pin, that pin has between 4 and 6
digits, it is submitted only when no verification was in flight, and a
second verifyPIN before the response resolves is a no-op. -/
theorem appLock_pin_invariants (ops : List LockOp) :
    (runLock ops lockInit).digits.length ≤ AppLock.pinLength
    ∧ ((runLock ops lockInit).digits.length < 4
        ∨ (runLock ops lockInit).isVerifying = true
        → AppLock.verifyStart (runLock ops lockInit)
          = (runLock ops lockInit, none))
    ∧ (∀ s' pin, AppLock.verifyStart (runLock ops lockInit) = (s', some pin)
        → 4 ≤ pin.length ∧ pin.length ≤ AppLock.pinLength
          ∧ (runLock ops lockInit).isVerifying = false
          ∧ s'.isVerifying = true
          ∧ AppLock.verifyStart s' = (s', none)) := by
  have h6 : (runLock ops lockInit).digits.length ≤ AppLock.pinLength :=
    runLock_digits_le ops lockInit (by decide)
  exact ⟨h6, verifyStart_noop _,
    fun s' pin h => verifyStart_submits _ s' pin h6 h⟩

/-- Witness for `appLock_pin_invariants`: after pressing four digits,
verifyPIN submits the four-digit pin and marks a verification in flight. -/
theorem appLock_pin_invariants_witness :
    AppLock.verifyStart
        (runLock [.append 1, .append 2, .append 3, .append 4] lockInit)
      = (⟨[1, 2, 3, 4], true⟩, some [1, 2, 3, 4])
    ∧ 4 ≤ ([1, 2, 3, 4] : List Nat).length
    ∧ ([1, 2, 3, 4] : List Nat).length ≤ AppLock.pinLength :=
  ⟨by decide,
    ((appLock_pin_invariants [.append 1, .append 2, .append 3, .append 4]).2.2
      ⟨[1, 2, 3, 4], true⟩ [1, 2, 3, 4] (by decide)).1,
    ((appLock_pin_invariants [.append 1, .append 2, .append 3, .append 4]).2.2
      ⟨[1, 2, 3, 4], true⟩ [1, 2, 3, 4] (by decide)).2.1⟩

end Defitech
